import Mathlib

/-!
Verification of the portfolio-ledger logic of the trading bot repository.

The definitions below are a shallow embedding of the Python sources:
* `recordTrade` and `getTrades` embed `FallbackPortfolioService` from
  `service_wrappers.py` (lines 144-207);
* `tradeCommand` embeds the validation pipeline of `patched_trade_command`
  from `deploy/command_patches.py` (lines 455-533);
* `buildHoldings` embeds the holdings-rebuild loop of
  `patched_portfolio_command` (lines 228-263);
* `computeSnapshot`, `mkLineItem` and the metric functions embed the
  snapshot computation of `patched_portfolio_command` (lines 289-430);
* `lastTradesView` embeds the `trades[-n:][::-1]` view of
  `patched_trades_command` (line 592).

Python floats are modelled as rationals (`ℚ`); Python `dict`s (which are
insertion-ordered with unique keys) are modelled as association lists with
the operations `dictGet`, `dictSet`, `dictDel`.
-/

/-- A Python-dict lookup: value of the first (unique) matching key. -/
def dictGet {κ α : Type} [DecidableEq κ] : List (κ × α) → κ → Option α
  | [], _ => none
  | (k', v) :: rest, k => if k' = k then some v else dictGet rest k

/-- A Python-dict assignment: update the entry in place if the key is
present, otherwise append the new entry at the end (insertion order). -/
def dictSet {κ α : Type} [DecidableEq κ] : List (κ × α) → κ → α → List (κ × α)
  | [], k, v => [(k, v)]
  | (k', v') :: rest, k, v =>
      if k' = k then (k', v) :: rest else (k', v') :: dictSet rest k v

/-- A Python-dict deletion: remove the (unique) entry with the given key. -/
def dictDel {κ α : Type} [DecidableEq κ] : List (κ × α) → κ → List (κ × α)
  | [], _ => []
  | (k', v') :: rest, k => if k' = k then rest else (k', v') :: dictDel rest k

/-- One recorded trade, as built by `FallbackPortfolioService.record_trade`
(`service_wrappers.py` lines 158-166): `id`, `type`, `symbol`, `quantity`,
`price`, `total = quantity * price`, and a creation timestamp. -/
structure Trade where
  id : Nat
  type : String
  symbol : String
  quantity : ℚ
  price : ℚ
  total : ℚ
  timestamp : Nat
  deriving DecidableEq, Repr

/-- A holding as kept by the service: `{'quantity': ..., 'avg_price': ...}`
(`service_wrappers.py` line 174). -/
structure Holding where
  quantity : ℚ
  avg_price : ℚ
  deriving DecidableEq, Repr

/-- The per-user portfolio `{'trades': [], 'holdings': {}}`
(`service_wrappers.py` line 156). -/
structure PortfolioState where
  trades : List Trade
  holdings : List (String × Holding)
  deriving DecidableEq, Repr

/-- The whole `FallbackPortfolioService` state: the per-user portfolio
dictionary plus the single shared `trade_counter`
(`service_wrappers.py` lines 147-149). -/
structure ServiceState where
  portfolios : List (Nat × PortfolioState)
  trade_counter : Nat
  deriving DecidableEq, Repr

/-- The dictionary `{'success': True, 'trade_id': ...}` returned by
`record_trade` (`service_wrappers.py` line 185). -/
structure RecordResult where
  success : Bool
  trade_id : Nat
  deriving DecidableEq, Repr

/-- A fresh per-user portfolio (`service_wrappers.py` line 156). -/
def emptyPortfolio : PortfolioState := ⟨[], []⟩

/-- The service state right after `__init__`: no portfolios,
`trade_counter = 1` (`service_wrappers.py` lines 147-149). -/
def initState : ServiceState := ⟨[], 1⟩

/-- The holdings update of `record_trade` (`service_wrappers.py` lines
171-183): ensure an entry `{'quantity': 0, 'avg_price': 0}` exists, then
on `'buy'` add the quantity and set the weighted-average price (guarded by
`if quantity > 0 else 0`), on any other type subtract the quantity and
delete the entry if the result is `≤ 0`. -/
def applyHoldings (holdings : List (String × Holding)) (tradeType symbol : String)
    (quantity price : ℚ) : List (String × Holding) :=
  let h := (dictGet holdings symbol).getD ⟨0, 0⟩
  if tradeType = "buy" then
    let totalCost := h.quantity * h.avg_price + quantity * price
    let newQty := h.quantity + quantity
    dictSet holdings symbol ⟨newQty, if newQty > 0 then totalCost / newQty else 0⟩
  else
    let newQty := h.quantity - quantity
    if newQty ≤ 0 then dictDel holdings symbol
    else dictSet holdings symbol ⟨newQty, h.avg_price⟩

/-- Embeds `FallbackPortfolioService.record_trade` (`service_wrappers.py` lines
152-185): create the user's portfolio if absent, append a trade carrying
the shared counter as id, increment the counter, update the holdings and
return `{'success': True, 'trade_id': ...}`.  The wall-clock timestamp is
passed in as `now`. -/
def recordTrade (s : ServiceState) (userId : Nat) (tradeType symbol : String)
    (quantity price : ℚ) (now : Nat) : ServiceState × RecordResult :=
  let p := (dictGet s.portfolios userId).getD emptyPortfolio
  let t : Trade :=
    ⟨s.trade_counter, tradeType, symbol, quantity, price, quantity * price, now⟩
  let p' : PortfolioState :=
    ⟨p.trades ++ [t], applyHoldings p.holdings tradeType symbol quantity price⟩
  (⟨dictSet s.portfolios userId p', s.trade_counter + 1⟩, ⟨true, t.id⟩)

/-- Embeds `FallbackPortfolioService.get_trades` (`service_wrappers.py` lines
202-207): the user's full trade list, `[]` for an unknown user. -/
def getTrades (s : ServiceState) (userId : Nat) : List Trade :=
  ((dictGet s.portfolios userId).getD emptyPortfolio).trades

/-- The user's holdings dictionary as stored by the service. -/
def userHoldings (s : ServiceState) (userId : Nat) : List (String × Holding) :=
  ((dictGet s.portfolios userId).getD emptyPortfolio).holdings

/-- The semantic core of `patched_trade_command`
(`deploy/command_patches.py` lines 471-529), after argument parsing:
reject an action outside `{buy, sell}` and non-positive quantity or price
with an error message and no service call; otherwise call `record_trade`. -/
def tradeCommand (s : ServiceState) (userId : Nat) (action symbol : String)
    (quantity price : ℚ) (now : Nat) : ServiceState × Except String RecordResult :=
  if ¬(action = "buy" ∨ action = "sell") then
    (s, Except.error "Action must be buy or sell")
  else if quantity ≤ 0 ∨ price ≤ 0 then
    (s, Except.error "Quantity and price must be positive numbers.")
  else
    let r := recordTrade s userId action symbol quantity price now
    (r.1, Except.ok r.2)

/-- The rebuilt holding `{'quantity': ..., 'avg_price': ..., 'total_cost': ...}`
of `patched_portfolio_command` (`deploy/command_patches.py` line 243). -/
structure BHolding where
  quantity : ℚ
  avg_price : ℚ
  total_cost : ℚ
  deriving DecidableEq, Repr

/-- The per-trade update of the rebuild loop once an entry for the symbol
exists (`deploy/command_patches.py` lines 249-263): a buy always adds the
quantity and refreshes `avg_price`/`total_cost` only when the new quantity
is positive; a sell subtracts the quantity, recomputes `total_cost` while
the quantity stays positive and deletes the entry otherwise. -/
def applyBuild (m : List (String × BHolding)) (t : Trade) (h : BHolding) :
    List (String × BHolding) :=
  if t.type = "buy" then
    let totalCost := h.total_cost + t.quantity * t.price
    let newQty := h.quantity + t.quantity
    if newQty > 0 then dictSet m t.symbol ⟨newQty, totalCost / newQty, totalCost⟩
    else dictSet m t.symbol ⟨newQty, h.avg_price, h.total_cost⟩
  else
    let newQty := h.quantity - t.quantity
    if newQty > 0 then dictSet m t.symbol ⟨newQty, h.avg_price, newQty * h.avg_price⟩
    else dictDel m t.symbol

/-- One iteration of the rebuild loop (`deploy/command_patches.py` lines
233-263): if the symbol has no entry, an entry `⟨0, 0, 0⟩` is created
first, and a sell is then skipped (`continue`) with that entry left in
place. -/
def buildStep (m : List (String × BHolding)) (t : Trade) : List (String × BHolding) :=
  match dictGet m t.symbol with
  | none =>
      let m' := dictSet m t.symbol ⟨0, 0, 0⟩
      if t.type = "sell" then m' else applyBuild m' t ⟨0, 0, 0⟩
  | some h => applyBuild m t h

/-- The full rebuild of holdings from the trade list
(`deploy/command_patches.py` lines 228-263). -/
def buildHoldings (trades : List Trade) : List (String × BHolding) :=
  trades.foldl buildStep []

/-- The fields of a market-data answer used by the snapshot computation
(`price`, `change_percent`, `company_name`); a whole-call failure is
`Option.none`. -/
structure PriceData where
  price : ℚ
  change_percent : ℚ
  company_name : String
  deriving DecidableEq, Repr

/-- One entry of `holdings_data` (`deploy/command_patches.py` lines
316-327). -/
structure LineItem where
  symbol : String
  company_name : String
  quantity : ℚ
  avg_price : ℚ
  current_price : ℚ
  cost_basis : ℚ
  current_value : ℚ
  daily_change : ℚ
  unrealized_pnl : ℚ
  unrealized_pnl_pct : ℚ
  deriving DecidableEq, Repr

/-- The per-holding part of the snapshot loop
(`deploy/command_patches.py` lines 295-327): `cost_basis = quantity *
avg_price`; on a successful price lookup take `price`, `quantity * price`,
`change_percent` and `company_name`; on a failed lookup (the `except`
branch) fall back to `avg_price`, `cost_basis`, `0` and the bare symbol;
`unrealized_pnl_pct` is `0` unless `cost_basis > 0`. -/
def mkLineItem (lookup : String → Option PriceData) (sym : String) (h : BHolding) :
    LineItem :=
  let cost_basis := h.quantity * h.avg_price
  let fetched : ℚ × ℚ × ℚ × String :=
    match lookup sym with
    | some pd => (pd.price, h.quantity * pd.price, pd.change_percent, pd.company_name)
    | none => (h.avg_price, cost_basis, 0, sym)
  { symbol := sym
    company_name := fetched.2.2.2
    quantity := h.quantity
    avg_price := h.avg_price
    current_price := fetched.1
    cost_basis := cost_basis
    current_value := fetched.2.1
    daily_change := fetched.2.2.1
    unrealized_pnl := fetched.2.1 - cost_basis
    unrealized_pnl_pct :=
      if cost_basis > 0 then (fetched.2.1 - cost_basis) / cost_basis * 100 else 0 }

/-- The aggregate snapshot values of `patched_portfolio_command`
(`deploy/command_patches.py` lines 289-331). -/
structure Snapshot where
  items : List LineItem
  total_cost_basis : ℚ
  total_current_value : ℚ
  total_pnl : ℚ
  total_pnl_pct : ℚ
  deriving DecidableEq, Repr

/-- The single accumulation pass over the holdings
(`deploy/command_patches.py` lines 294-327): running `total_cost_basis`,
running `total_current_value`, and the `holdings_data` list. -/
def snapFold (lookup : String → Option PriceData)
    (acc : ℚ × ℚ × List LineItem) (kv : String × BHolding) :
    ℚ × ℚ × List LineItem :=
  let item := mkLineItem lookup kv.1 kv.2
  (acc.1 + item.cost_basis, acc.2.1 + item.current_value, acc.2.2 ++ [item])

/-- The snapshot computation (`deploy/command_patches.py` lines 289-331):
one pass accumulating the totals, then `total_pnl = total_current_value -
total_cost_basis` and `total_pnl_pct` guarded by `total_cost_basis > 0`. -/
def computeSnapshot (lookup : String → Option PriceData)
    (holdings : List (String × BHolding)) : Snapshot :=
  let acc := holdings.foldl (snapFold lookup) (0, 0, [])
  { items := acc.2.2
    total_cost_basis := acc.1
    total_current_value := acc.2.1
    total_pnl := acc.2.1 - acc.1
    total_pnl_pct := if acc.1 > 0 then (acc.2.1 - acc.1) / acc.1 * 100 else 0 }

/-- The `/portfolio` command as a state transformer: it reads the user's
trades, rebuilds the holdings and computes the snapshot; the command never
writes to the service state (`deploy/command_patches.py` lines 213-331). -/
def portfolioCommandStep (lookup : String → Option PriceData)
    (s : ServiceState) (userId : Nat) : Snapshot × ServiceState :=
  (computeSnapshot lookup (buildHoldings (getTrades s userId)), s)

/-- The `winners` list (`deploy/command_patches.py` line 378). -/
def winners (data : List LineItem) : List LineItem :=
  data.filter (fun h => decide (h.unrealized_pnl > 0))

/-- The `losers` list (`deploy/command_patches.py` line 379). -/
def losers (data : List LineItem) : List LineItem :=
  data.filter (fun h => decide (h.unrealized_pnl < 0))

/-- The `total_gains` sum (`deploy/command_patches.py` line 425). -/
def totalGains (data : List LineItem) : ℚ :=
  ((winners data).map LineItem.unrealized_pnl).sum

/-- The `total_losses` magnitude (`deploy/command_patches.py` line 426). -/
def totalLosses (data : List LineItem) : ℚ :=
  |((losers data).map LineItem.unrealized_pnl).sum|

/-- The `Gain/Loss Ratio` reported by `patched_portfolio_command`
(`deploy/command_patches.py` lines 428-430), only when
`total_losses > 0`; it is a ratio of currency amounts. -/
def gainLossRat (data : List LineItem) : Option ℚ :=
  if totalLosses data > 0 then some (totalGains data / totalLosses data) else none

/-- The `Profitable Positions: w of n` counts reported by
`patched_portfolio_command` (line 381). -/
def profitableCounts (data : List LineItem) : Nat × Nat :=
  ((winners data).length, data.length)

/-- The `trades[-n:][::-1]` view of `patched_trades_command`
(`deploy/command_patches.py` line 592): the last `n` trades, newest
first. -/
def lastTradesView (n : Nat) (ts : List Trade) : List Trade :=
  (ts.drop (ts.length - n)).reverse

/-- The operation the spec names `list_trades`: insertion order with no limit,
`lastTradesView` with a limit (the composition of
`FallbackPortfolioService.get_trades` with the slicing done by
`patched_trades_command`). -/
def listTrades (s : ServiceState) (userId : Nat) : Option Nat → List Trade
  | none => getTrades s userId
  | some n => lastTradesView n (getTrades s userId)

/-- All trades stored in the service, across every user. -/
def allTrades (s : ServiceState) : List Trade :=
  (s.portfolios.map (fun kv => kv.2.trades)).flatten

/-- All trade ids stored in the service, across every user. -/
def allTradeIds (s : ServiceState) : List Nat :=
  (allTrades s).map Trade.id

/-- The id bookkeeping invariant of the service: every stored trade id is
below the shared `trade_counter`, and the ids are pairwise distinct across
all users. -/
def IdsOK (s : ServiceState) : Prop :=
  (∀ i ∈ allTradeIds s, i < s.trade_counter) ∧ (allTradeIds s).Nodup

/-- Concrete trade list for the gain/loss-ratio computation: buy 1 share
of `W` at 100 and 1 share of `L` at 1000. -/
def cexTrades : List Trade :=
  [⟨1, "buy", "W", 1, 100, 100, 0⟩, ⟨2, "buy", "L", 1, 1000, 1000, 1⟩]

/-- Concrete price assignment: `W` is up 10% (110), `L` is down 5% (950). -/
def cexLookup : String → Option PriceData :=
  fun s => if s = "W" then some ⟨110, 0, "W"⟩ else some ⟨950, 0, "L"⟩

/-- A two-position holdings family with a common cost basis `c` per
position: one share of `W` and one share of `L`, both at average price
`c`. -/
def holdC8 (c : ℚ) : List (String × BHolding) :=
  [("W", ⟨1, c, c⟩), ("L", ⟨1, c, c⟩)]

/-- Prices putting `W` up 10% and `L` down 5% relative to `holdC8 c`. -/
def lookupC8 (c : ℚ) : String → Option PriceData :=
  fun s => if s = "W" then some ⟨11 * c / 10, 0, "W"⟩ else some ⟨19 * c / 20, 0, "L"⟩

/-- A state reached from `initState` by user 1 trading, then user 2, then
user 1 again: user 1's own id sequence has a gap. -/
def gapState : ServiceState :=
  (recordTrade
    (recordTrade
      (recordTrade initState 1 "buy" "AAPL" 1 10 0).1
      2 "buy" "MSFT" 1 20 1).1
    1 "buy" "TSLA" 1 30 2).1

/-! ### Helper lemmas about the dictionary operations -/

theorem dictGet_dictSet_self {κ α : Type} [DecidableEq κ] (m : List (κ × α)) (k : κ) (v : α) :
    dictGet (dictSet m k v) k = some v := by
  induction m with
  | nil => simp [dictGet, dictSet]
  | cons kv rest ih =>
      by_cases h : kv.1 = k
      · simp [dictSet, dictGet, h]
      · simp [dictSet, dictGet, h, ih]

theorem dictGet_dictSet_ne {κ α : Type} [DecidableEq κ] (m : List (κ × α)) (k k' : κ) (v : α)
    (h : k' ≠ k) : dictGet (dictSet m k v) k' = dictGet m k' := by
  have hkk : ¬k = k' := fun h' => h h'.symm
  induction m with
  | nil => simp [dictGet, dictSet, hkk]
  | cons kv rest ih =>
      obtain ⟨k0, v0⟩ := kv
      by_cases hk : k0 = k
      · simp [dictSet, dictGet, hk, hkk]
      · by_cases hk' : k0 = k'
        · simp [dictSet, dictGet, hk, hk', h]
        · simp [dictSet, dictGet, hk, hk', ih]

theorem mem_dictSet {κ α : Type} [DecidableEq κ] {m : List (κ × α)} {k : κ} {v : α}
    {a : κ × α} (h : a ∈ dictSet m k v) : a = (k, v) ∨ a ∈ m := by
  induction m with
  | nil =>
      simp [dictSet] at h
      exact Or.inl h
  | cons kv rest ih =>
      obtain ⟨k0, v0⟩ := kv
      by_cases hk : k0 = k
      · rw [show dictSet ((k0, v0) :: rest) k v = (k0, v) :: rest by simp [dictSet, hk]] at h
        rcases List.mem_cons.mp h with h' | h'
        · exact Or.inl (by rw [h', hk])
        · exact Or.inr (List.mem_cons_of_mem _ h')
      · rw [show dictSet ((k0, v0) :: rest) k v = (k0, v0) :: dictSet rest k v by
          simp [dictSet, hk]] at h
        rcases List.mem_cons.mp h with h' | h'
        · exact Or.inr (by rw [h']; exact List.mem_cons_self _ _)
        · rcases ih h' with h'' | h''
          · exact Or.inl h''
          · exact Or.inr (List.mem_cons_of_mem _ h'')

theorem mem_dictDel {κ α : Type} [DecidableEq κ] {m : List (κ × α)} {k : κ}
    {a : κ × α} (h : a ∈ dictDel m k) : a ∈ m := by
  induction m with
  | nil =>
      simp [dictDel] at h
  | cons kv rest ih =>
      obtain ⟨k0, v0⟩ := kv
      by_cases hk : k0 = k
      · rw [show dictDel ((k0, v0) :: rest) k = rest by simp [dictDel, hk]] at h
        exact List.mem_cons_of_mem _ h
      · rw [show dictDel ((k0, v0) :: rest) k = (k0, v0) :: dictDel rest k by
          simp [dictDel, hk]] at h
        rcases List.mem_cons.mp h with h' | h'
        · rw [h']
          exact List.mem_cons_self _ _
        · exact List.mem_cons_of_mem _ (ih h')

theorem dictDel_of_get_none {κ α : Type} [DecidableEq κ] {m : List (κ × α)} {k : κ}
    (h : dictGet m k = none) : dictDel m k = m := by
  induction m with
  | nil => simp [dictDel]
  | cons kv rest ih =>
      obtain ⟨k0, v0⟩ := kv
      by_cases hk : k0 = k
      · simp [dictGet, hk] at h
      · simp only [dictGet, if_neg hk] at h
        simp [dictDel, hk, ih h]

theorem dictGet_mem {κ α : Type} [DecidableEq κ] {m : List (κ × α)} {k : κ} {v : α}
    (h : dictGet m k = some v) : (k, v) ∈ m := by
  induction m with
  | nil => simp [dictGet] at h
  | cons kv rest ih =>
      obtain ⟨k0, v0⟩ := kv
      by_cases hk : k0 = k
      · have hv : v0 = v := by simpa [dictGet, hk] using h
        subst hk
        subst hv
        exact List.mem_cons_self _ _
      · have h' : dictGet rest k = some v := by simpa [dictGet, hk] using h
        exact List.mem_cons_of_mem _ (ih h')

/-! ### Helper lemmas about `recordTrade` -/

theorem getTrades_recordTrade_self (s : ServiceState) (u : Nat) (ty sym : String)
    (q p : ℚ) (now : Nat) :
    getTrades (recordTrade s u ty sym q p now).1 u =
      getTrades s u ++ [⟨s.trade_counter, ty, sym, q, p, q * p, now⟩] := by
  simp [getTrades, recordTrade, dictGet_dictSet_self]

theorem getTrades_recordTrade_other (s : ServiceState) (u v : Nat) (ty sym : String)
    (q p : ℚ) (now : Nat) (h : v ≠ u) :
    getTrades (recordTrade s u ty sym q p now).1 v = getTrades s v := by
  simp [getTrades, recordTrade, dictGet_dictSet_ne _ _ _ _ h]

theorem userHoldings_recordTrade_self (s : ServiceState) (u : Nat) (ty sym : String)
    (q p : ℚ) (now : Nat) :
    userHoldings (recordTrade s u ty sym q p now).1 u =
      applyHoldings (userHoldings s u) ty sym q p := by
  simp [userHoldings, recordTrade, dictGet_dictSet_self]

theorem userHoldings_recordTrade_other (s : ServiceState) (u v : Nat) (ty sym : String)
    (q p : ℚ) (now : Nat) (h : v ≠ u) :
    userHoldings (recordTrade s u ty sym q p now).1 v = userHoldings s v := by
  simp [userHoldings, recordTrade, dictGet_dictSet_ne _ _ _ _ h]

/-! ### Helper lemmas about the snapshot computation -/

theorem snapFold_characterization (lookup : String → Option PriceData)
    (holdings : List (String × BHolding)) (a b : ℚ) (l : List LineItem) :
    holdings.foldl (snapFold lookup) (a, b, l) =
      (a + (holdings.map (fun kv => (mkLineItem lookup kv.1 kv.2).cost_basis)).sum,
       b + (holdings.map (fun kv => (mkLineItem lookup kv.1 kv.2).current_value)).sum,
       l ++ holdings.map (fun kv => mkLineItem lookup kv.1 kv.2)) := by
  induction holdings generalizing a b l with
  | nil => simp
  | cons kv rest ih =>
      simp only [List.foldl_cons, List.map_cons, List.sum_cons, snapFold, ih,
        Prod.mk.injEq]
      refine ⟨by ring, by ring, by simp⟩

theorem computeSnapshot_items (lookup : String → Option PriceData)
    (holdings : List (String × BHolding)) :
    (computeSnapshot lookup holdings).items =
      holdings.map (fun kv => mkLineItem lookup kv.1 kv.2) := by
  simp [computeSnapshot, snapFold_characterization]

theorem computeSnapshot_tcb (lookup : String → Option PriceData)
    (holdings : List (String × BHolding)) :
    (computeSnapshot lookup holdings).total_cost_basis =
      (((computeSnapshot lookup holdings).items).map LineItem.cost_basis).sum := by
  simp [computeSnapshot, snapFold_characterization, List.map_map, Function.comp_def]

theorem computeSnapshot_tcv (lookup : String → Option PriceData)
    (holdings : List (String × BHolding)) :
    (computeSnapshot lookup holdings).total_current_value =
      (((computeSnapshot lookup holdings).items).map LineItem.current_value).sum := by
  simp [computeSnapshot, snapFold_characterization, List.map_map, Function.comp_def]

theorem computeSnapshot_tp (lookup : String → Option PriceData)
    (holdings : List (String × BHolding)) :
    (computeSnapshot lookup holdings).total_pnl =
      (computeSnapshot lookup holdings).total_current_value -
        (computeSnapshot lookup holdings).total_cost_basis := by
  simp [computeSnapshot]

theorem computeSnapshot_tpp (lookup : String → Option PriceData)
    (holdings : List (String × BHolding)) :
    (computeSnapshot lookup holdings).total_pnl_pct =
      if (computeSnapshot lookup holdings).total_cost_basis > 0 then
        (computeSnapshot lookup holdings).total_pnl /
          (computeSnapshot lookup holdings).total_cost_basis * 100
      else 0 := by
  simp [computeSnapshot]

/-! ### Helper lemmas about trade ids -/

theorem flatten_map_dictSet_trades (ps : List (Nat × PortfolioState)) (u : Nat)
    (t : Trade) (p' : PortfolioState)
    (hp : p'.trades = ((dictGet ps u).getD emptyPortfolio).trades ++ [t]) :
    List.Perm (((dictSet ps u p').map (fun kv => kv.2.trades)).flatten)
      (((ps.map (fun kv => kv.2.trades)).flatten) ++ [t]) := by
  induction ps with
  | nil =>
      simp [dictGet, emptyPortfolio] at hp
      simp [dictSet, hp]
  | cons kv rest ih =>
      obtain ⟨k0, v0⟩ := kv
      by_cases hk : k0 = u
      · rw [show dictSet ((k0, v0) :: rest) u p' = (k0, p') :: rest by simp [dictSet, hk]]
        simp only [dictGet, if_pos hk, Option.getD_some] at hp
        simp only [List.map_cons, List.flatten_cons, hp, List.append_assoc]
        exact List.Perm.append_left _ List.perm_append_comm
      · rw [show dictSet ((k0, v0) :: rest) u p' = (k0, v0) :: dictSet rest u p' by
          simp [dictSet, hk]]
        simp only [dictGet, if_neg hk] at hp
        simp only [List.map_cons, List.flatten_cons, List.append_assoc]
        exact List.Perm.append_left _ (ih hp)

theorem allTrades_recordTrade (s : ServiceState) (u : Nat) (ty sym : String)
    (q p : ℚ) (now : Nat) :
    List.Perm (allTrades (recordTrade s u ty sym q p now).1)
      (allTrades s ++ [⟨s.trade_counter, ty, sym, q, p, q * p, now⟩]) := by
  unfold allTrades recordTrade
  exact flatten_map_dictSet_trades s.portfolios u _ _ rfl

/-! ### Helper lemmas about the holdings update -/

theorem applyHoldings_buy_some (m : List (String × Holding)) (sym : String) (h : Holding)
    (q p : ℚ) (hget : dictGet m sym = some h) (h0 : 0 ≤ h.quantity) (hq : 0 < q) :
    dictGet (applyHoldings m "buy" sym q p) sym =
      some ⟨h.quantity + q, (h.quantity * h.avg_price + q * p) / (h.quantity + q)⟩ := by
  have hpos : h.quantity + q > 0 := by linarith
  unfold applyHoldings
  simp only [hget, Option.getD_some, if_pos rfl, if_pos hpos]
  exact dictGet_dictSet_self m sym _

theorem applyHoldings_buy_none (m : List (String × Holding)) (sym : String)
    (q p : ℚ) (hget : dictGet m sym = none) (hq : 0 < q) :
    dictGet (applyHoldings m "buy" sym q p) sym = some ⟨q, p⟩ := by
  have hpq : q * p / q = p := by
    rw [mul_comm]
    exact mul_div_cancel_right₀ p (ne_of_gt hq)
  unfold applyHoldings
  simp [hget, hq, hpq, dictGet_dictSet_self]

theorem applyHoldings_sell_none (m : List (String × Holding)) (sym : String)
    (q p : ℚ) (hget : dictGet m sym = none) (hq : 0 < q) :
    applyHoldings m "sell" sym q p = m := by
  unfold applyHoldings
  have hneq : ¬("sell" = "buy") := by decide
  have hle : (Holding.mk 0 0).quantity - q ≤ 0 := by simp; linarith
  simp only [hget, Option.getD_none, if_neg hneq, if_pos hle]
  exact dictDel_of_get_none hget

/-! ### Helper lemmas about the line items -/

theorem mkLineItem_cost_basis (lookup : String → Option PriceData) (sym : String)
    (h : BHolding) :
    (mkLineItem lookup sym h).cost_basis = h.quantity * h.avg_price := rfl

theorem mkLineItem_pct (lookup : String → Option PriceData) (sym : String)
    (h : BHolding) :
    (mkLineItem lookup sym h).unrealized_pnl_pct =
      if (mkLineItem lookup sym h).cost_basis > 0 then
        (mkLineItem lookup sym h).unrealized_pnl / (mkLineItem lookup sym h).cost_basis * 100
      else 0 := rfl

theorem mkLineItem_none (lookup : String → Option PriceData) (sym : String)
    (h : BHolding) (hfail : lookup sym = none) :
    (mkLineItem lookup sym h).current_price = h.avg_price ∧
    (mkLineItem lookup sym h).current_value = (mkLineItem lookup sym h).cost_basis ∧
    (mkLineItem lookup sym h).daily_change = 0 ∧
    (mkLineItem lookup sym h).company_name = sym ∧
    (mkLineItem lookup sym h).unrealized_pnl = 0 := by
  unfold mkLineItem
  simp [hfail]

/-! ### Preservation of the id invariant -/

theorem IdsOK_record (s : ServiceState) (u : Nat) (ty sym : String) (q p : ℚ) (now : Nat)
    (hs : IdsOK s) : IdsOK (recordTrade s u ty sym q p now).1 := by
  obtain ⟨hbound, hnd⟩ := hs
  have hperm : List.Perm (allTradeIds (recordTrade s u ty sym q p now).1)
      (allTradeIds s ++ [s.trade_counter]) := by
    have h1 := (allTrades_recordTrade s u ty sym q p now).map Trade.id
    simpa [allTradeIds, List.map_append] using h1
  have hcounter : (recordTrade s u ty sym q p now).1.trade_counter = s.trade_counter + 1 :=
    rfl
  constructor
  · intro i hi
    rw [hcounter]
    rcases List.mem_append.mp (hperm.mem_iff.mp hi) with h | h
    · exact Nat.lt_trans (hbound i h) (Nat.lt_succ_self _)
    · rw [List.mem_singleton.mp h]
      exact Nat.lt_succ_self _
  · apply hperm.nodup_iff.mpr
    apply List.Nodup.append hnd (List.nodup_singleton _)
    intro a ha hb
    rw [List.mem_singleton.mp hb] at ha
    exact absurd (hbound _ ha) (lt_irrefl _)

/-! ### Claim theorems -/

/-- C1 (counterexample): contrary to the claim, `record_trade` itself
performs no validation: called directly with `quantity = 0` it returns
`{'success': True}` with a trade id and mutates the ledger (the user's
trade count grows from 0 to 1), instead of failing and leaving the ledger
unchanged. -/
theorem C1_record_trade_accepts_invalid :
    (recordTrade initState 1 "buy" "AAPL" 0 10 0).2.success = true ∧
    (getTrades (recordTrade initState 1 "buy" "AAPL" 0 10 0).1 1).length = 1 ∧
    getTrades initState 1 = [] := by
  refine ⟨rfl, ?_, rfl⟩
  rw [getTrades_recordTrade_self]
  rfl

/-- C1 (amended): the rejection of invalid trades happens in the command
handler (`patched_trade_command`), before `record_trade` is invoked: for
an action outside `{buy, sell}`, a non-positive quantity or a non-positive
price, the handler replies with an error message, `record_trade` is not
called, and the ledger is unchanged; `record_trade` itself performs no
validation. -/
theorem C1_handler_rejects_invalid (s : ServiceState) (u : Nat)
    (action symbol : String) (q p : ℚ) (now : Nat)
    (h : ¬(action = "buy" ∨ action = "sell") ∨ q ≤ 0 ∨ p ≤ 0) :
    (tradeCommand s u action symbol q p now).1 = s ∧
      ∃ e, (tradeCommand s u action symbol q p now).2 = Except.error e := by
  unfold tradeCommand
  rcases h with h | h
  · simp [h]
  · by_cases ha : action = "buy" ∨ action = "sell"
    · simp [ha, h]
    · simp [ha]

/-- Witness for C1 (amended) at quantity 0. -/
theorem C1_handler_rejects_invalid_witness :
    (tradeCommand initState 1 "buy" "AAPL" 0 10 0).1 = initState ∧
      ∃ e, (tradeCommand initState 1 "buy" "AAPL" 0 10 0).2 = Except.error e :=
  C1_handler_rejects_invalid initState 1 "buy" "AAPL" 0 10 0
    (Or.inr (Or.inl (by norm_num)))

/-- C2: starting from no open position in `sym`, buying `q1` at `p1` and
then `q2` at `p2` leaves the holding at quantity `q1 + q2` with average
cost `(q1*p1 + q2*p2)/(q1 + q2)`; and in general a buy on an existing
holding with non-negative quantity sets the new average cost to
`(existing_quantity * existing_avg_cost + quantity * price) /
(existing_quantity + quantity)`. -/
theorem C2_weighted_average_cost (s : ServiceState) (u : Nat) (sym : String)
    (q1 p1 q2 p2 : ℚ) (t1 t2 : Nat)
    (h0 : dictGet (userHoldings s u) sym = none)
    (hq1 : 0 < q1) (hq2 : 0 < q2) :
    dictGet (userHoldings
        (recordTrade (recordTrade s u "buy" sym q1 p1 t1).1 u "buy" sym q2 p2 t2).1 u)
        sym =
      some ⟨q1 + q2, (q1 * p1 + q2 * p2) / (q1 + q2)⟩ ∧
    ∀ (m : List (String × Holding)) (h : Holding) (q p : ℚ),
      dictGet m sym = some h → 0 ≤ h.quantity → 0 < q →
      dictGet (applyHoldings m "buy" sym q p) sym =
        some ⟨h.quantity + q, (h.quantity * h.avg_price + q * p) / (h.quantity + q)⟩ := by
  constructor
  · rw [userHoldings_recordTrade_self]
    have h1 : dictGet (userHoldings (recordTrade s u "buy" sym q1 p1 t1).1 u) sym =
        some ⟨q1, p1⟩ := by
      rw [userHoldings_recordTrade_self]
      exact applyHoldings_buy_none _ _ _ _ h0 hq1
    have h2 := applyHoldings_buy_some
      (userHoldings (recordTrade s u "buy" sym q1 p1 t1).1 u) sym ⟨q1, p1⟩ q2 p2
      h1 (le_of_lt hq1) hq2
    exact h2
  · intro m h q p hget hge hq
    exact applyHoldings_buy_some m sym h q p hget hge hq

/-- Witness for C2: 10 shares at 150 then 5 shares at 160 give quantity 15
at average cost `(10*150 + 5*160)/15`. -/
theorem C2_weighted_average_cost_witness :
    dictGet (userHoldings
        (recordTrade (recordTrade initState 1 "buy" "AAPL" 10 150 0).1
          1 "buy" "AAPL" 5 160 1).1 1) "AAPL" =
      some ⟨10 + 5, (10 * 150 + 5 * 160) / (10 + 5)⟩ :=
  (C2_weighted_average_cost initState 1 "AAPL" 10 150 5 160 0 1 rfl
    (by norm_num) (by norm_num)).1

/-- C3 (code bug): for the valid trade "sell 1 AAPL at 10" recorded
against an empty ledger, the incrementally maintained holdings of
`record_trade` end up with no AAPL entry, but the holdings rebuilt from
the same trade list by `patched_portfolio_command` retain the entry
`AAPL ↦ {quantity: 0, avg_price: 0, total_cost: 0}`: the rebuild loop
creates the entry before noticing the trade is a sell of a not-held
symbol, then `continue`s without removing it, so a zero-quantity holding
is retained, contradicting the claimed invariant. -/
theorem C3_rebuild_keeps_zero_quantity_holding :
    buildHoldings [⟨1, "sell", "AAPL", 1, 10, 10, 0⟩] = [("AAPL", ⟨0, 0, 0⟩)] ∧
    dictGet (userHoldings (recordTrade initState 1 "sell" "AAPL" 1 10 0).1 1) "AAPL" =
      none ∧
    (0 : ℚ) < 1 ∧ (0 : ℚ) < 10 := by
  refine ⟨rfl, ?_, by norm_num, by norm_num⟩
  rw [userHoldings_recordTrade_self,
    applyHoldings_sell_none (userHoldings initState 1) "AAPL" 1 10 rfl (by norm_num)]
  rfl

/-- C4: selling a symbol for which the user holds no open position is
accepted: `record_trade` returns `{'success': True}` with the next trade
id, appends the sell to the user's trade list, and the holdings map still
has no entry for that symbol afterwards (the transient entry is created
and immediately deleted). -/
theorem C4_sell_without_holding (s : ServiceState) (u : Nat) (sym : String)
    (q p : ℚ) (now : Nat)
    (h0 : dictGet (userHoldings s u) sym = none) (hq : 0 < q) :
    (recordTrade s u "sell" sym q p now).2 = ⟨true, s.trade_counter⟩ ∧
    getTrades (recordTrade s u "sell" sym q p now).1 u =
      getTrades s u ++ [⟨s.trade_counter, "sell", sym, q, p, q * p, now⟩] ∧
    dictGet (userHoldings (recordTrade s u "sell" sym q p now).1 u) sym = none := by
  refine ⟨rfl, getTrades_recordTrade_self s u "sell" sym q p now, ?_⟩
  rw [userHoldings_recordTrade_self, applyHoldings_sell_none _ _ _ _ h0 hq]
  exact h0

/-- Witness for C4: selling 1 AAPL at 10 against the fresh service. -/
theorem C4_sell_without_holding_witness :
    (recordTrade initState 1 "sell" "AAPL" 1 10 0).2 = ⟨true, initState.trade_counter⟩ ∧
    getTrades (recordTrade initState 1 "sell" "AAPL" 1 10 0).1 1 =
      getTrades initState 1 ++ [⟨initState.trade_counter, "sell", "AAPL", 1, 10, 1 * 10, 0⟩] ∧
    dictGet (userHoldings (recordTrade initState 1 "sell" "AAPL" 1 10 0).1 1) "AAPL" =
      none :=
  C4_sell_without_holding initState 1 "AAPL" 1 10 0 rfl (by norm_num)

/-- C5 (counterexample): contrary to the claim, a failed price lookup is
not marked stale: the line item built when the lookup for `AAPL` fails is
byte-for-byte identical to the one built when the lookup succeeds at the
stored average cost with zero change, so nothing in the snapshot
distinguishes (marks) the failed position. -/
theorem C5_no_stale_marking :
    mkLineItem (fun _ => none) "AAPL" ⟨10, 150, 1500⟩ =
      mkLineItem (fun s => some ⟨150, 0, s⟩) "AAPL" ⟨10, 150, 1500⟩ := by
  rfl

/-- C5 (amended): when the price lookup fails for a symbol, the snapshot
computation does not abort: that position is valued at its stored average
cost (`current_value = cost_basis`, so its unrealized P&L is 0 and its
daily change is 0), no stale marker is attached, and every holding still
contributes a line item, with the totals computed as sums over all of
them. -/
theorem C5_lookup_failure_fallback (lookup : String → Option PriceData)
    (holdings : List (String × BHolding)) (sym : String) (h : BHolding)
    (hfail : lookup sym = none) :
    (mkLineItem lookup sym h).current_price = h.avg_price ∧
    (mkLineItem lookup sym h).current_value = (mkLineItem lookup sym h).cost_basis ∧
    (mkLineItem lookup sym h).unrealized_pnl = 0 ∧
    (computeSnapshot lookup holdings).items =
      holdings.map (fun kv => mkLineItem lookup kv.1 kv.2) ∧
    (computeSnapshot lookup holdings).total_cost_basis =
      (((computeSnapshot lookup holdings).items).map LineItem.cost_basis).sum ∧
    (computeSnapshot lookup holdings).total_current_value =
      (((computeSnapshot lookup holdings).items).map LineItem.current_value).sum := by
  obtain ⟨h1, h2, _, _, h5⟩ := mkLineItem_none lookup sym h hfail
  exact ⟨h1, h2, h5, computeSnapshot_items lookup holdings,
    computeSnapshot_tcb lookup holdings, computeSnapshot_tcv lookup holdings⟩

/-- Witness for C5 (amended) at a single-holding portfolio whose lookup
always fails. -/
theorem C5_lookup_failure_fallback_witness :
    (mkLineItem (fun _ => none) "AAPL" ⟨10, 150, 1500⟩).current_price = (150 : ℚ) ∧
    (mkLineItem (fun _ => none) "AAPL" ⟨10, 150, 1500⟩).current_value =
      (mkLineItem (fun _ => none) "AAPL" ⟨10, 150, 1500⟩).cost_basis ∧
    (mkLineItem (fun _ => none) "AAPL" ⟨10, 150, 1500⟩).unrealized_pnl = 0 :=
  have h := C5_lookup_failure_fallback (fun _ => none)
    [("AAPL", ⟨10, 150, 1500⟩)] "AAPL" ⟨10, 150, 1500⟩ rfl
  ⟨h.1, h.2.1, h.2.2.1⟩

/-- C6: for every trade list and price assignment, the snapshot's
aggregates satisfy `total_cost_basis = Σ cost_basis`,
`total_current_value = Σ current_value`,
`total_pnl = total_current_value - total_cost_basis`, and both
`total_pnl_pct` and each per-holding `unrealized_pnl_pct` are 0 rather
than an error when the corresponding cost basis is 0. -/
theorem C6_snapshot_aggregates (trades : List Trade)
    (lookup : String → Option PriceData) :
    (computeSnapshot lookup (buildHoldings trades)).total_cost_basis =
      (((computeSnapshot lookup (buildHoldings trades)).items).map
        LineItem.cost_basis).sum ∧
    (computeSnapshot lookup (buildHoldings trades)).total_current_value =
      (((computeSnapshot lookup (buildHoldings trades)).items).map
        LineItem.current_value).sum ∧
    (computeSnapshot lookup (buildHoldings trades)).total_pnl =
      (computeSnapshot lookup (buildHoldings trades)).total_current_value -
        (computeSnapshot lookup (buildHoldings trades)).total_cost_basis ∧
    ((computeSnapshot lookup (buildHoldings trades)).total_cost_basis = 0 →
      (computeSnapshot lookup (buildHoldings trades)).total_pnl_pct = 0) ∧
    ∀ item ∈ (computeSnapshot lookup (buildHoldings trades)).items,
      item.cost_basis = 0 → item.unrealized_pnl_pct = 0 := by
  refine ⟨computeSnapshot_tcb lookup (buildHoldings trades),
    computeSnapshot_tcv lookup (buildHoldings trades),
    computeSnapshot_tp lookup (buildHoldings trades), ?_, ?_⟩
  · intro h0
    rw [computeSnapshot_tpp, if_neg]
    rw [h0]
    norm_num
  · intro item hmem h0
    rw [computeSnapshot_items] at hmem
    obtain ⟨kv, hkv, rfl⟩ := List.mem_map.mp hmem
    rw [mkLineItem_pct, if_neg]
    rw [h0]
    norm_num

/-- Witness for C6: the per-item guard at an empty ledger and the totals
at a one-trade ledger. -/
theorem C6_snapshot_aggregates_witness :
    (computeSnapshot cexLookup (buildHoldings cexTrades)).total_cost_basis =
      (((computeSnapshot cexLookup (buildHoldings cexTrades)).items).map
        LineItem.cost_basis).sum :=
  (C6_snapshot_aggregates cexTrades cexLookup).1

/-- C7: the `/portfolio` snapshot computation is idempotent and
side-effect free: it returns the service state it was given unchanged
(the Python handler only reads `get_trades` and builds fresh local
dictionaries), and running it a second time on the resulting state with
the same price lookup produces the identical snapshot. -/
theorem C7_snapshot_idempotent (lookup : String → Option PriceData)
    (s : ServiceState) (u : Nat) :
    (portfolioCommandStep lookup s u).2 = s ∧
    (portfolioCommandStep lookup (portfolioCommandStep lookup s u).2 u).1 =
      (portfolioCommandStep lookup s u).1 := by
  exact ⟨rfl, rfl⟩

/-- C8 (counterexample): a portfolio with exactly one winning position at
+10% (cost basis 100, value 110) and one losing position at -5% (cost
basis 1000, value 950), where the code's reported `Gain/Loss Ratio` is
`10 / 50 = 1/5`, not the claimed `2.0`: the code computes a ratio of
currency amounts, not `avg_winner_pct / |avg_loser_pct|`, and no percent
based risk/reward ratio is computed at all. -/
theorem C8_ratio_counterexample :
    ((computeSnapshot cexLookup (buildHoldings cexTrades)).items.map
        LineItem.unrealized_pnl_pct) = [10, -5] ∧
    gainLossRat ((computeSnapshot cexLookup (buildHoldings cexTrades)).items) =
      some (1 / 5) ∧
    (1 / 5 : ℚ) ≠ 2 := by
  have hWL : ¬("W" : String) = "L" := by decide
  have hLW : ¬("L" : String) = "W" := by decide
  have hbs : ¬("buy" : String) = "sell" := by decide
  have hbh : buildHoldings cexTrades =
      [("W", ⟨1, 100, 100⟩), ("L", ⟨1, 1000, 1000⟩)] := by
    norm_num [buildHoldings, cexTrades, buildStep, applyBuild, dictGet, dictSet, hWL, hbs]
  have hitems : (computeSnapshot cexLookup (buildHoldings cexTrades)).items =
      [mkLineItem cexLookup "W" ⟨1, 100, 100⟩, mkLineItem cexLookup "L" ⟨1, 1000, 1000⟩] := by
    rw [computeSnapshot_items, hbh]
    rfl
  have hW : mkLineItem cexLookup "W" ⟨1, 100, 100⟩ =
      ⟨"W", "W", 1, 100, 110, 100, 110, 0, 10, 10⟩ := by
    norm_num [mkLineItem, cexLookup]
  have hL : mkLineItem cexLookup "L" ⟨1, 1000, 1000⟩ =
      ⟨"L", "L", 1, 1000, 950, 1000, 950, 0, -50, -5⟩ := by
    norm_num [mkLineItem, cexLookup, hLW]
  have hw : winners ((computeSnapshot cexLookup (buildHoldings cexTrades)).items) =
      [⟨"W", "W", 1, 100, 110, 100, 110, 0, 10, 10⟩] := by
    rw [hitems, hW, hL]
    norm_num [winners, List.filter_cons]
  have hl : losers ((computeSnapshot cexLookup (buildHoldings cexTrades)).items) =
      [⟨"L", "L", 1, 1000, 950, 1000, 950, 0, -50, -5⟩] := by
    rw [hitems, hW, hL]
    norm_num [losers, List.filter_cons]
  refine ⟨?_, ?_, by norm_num⟩
  · rw [hitems, hW, hL]
    norm_num
  · rw [gainLossRat, totalGains, totalLosses, hw, hl]
    norm_num

/-- C8 (amended): the snapshot reports the profitable-position counts
`winners of total` (1 of 2, i.e. a 50% win rate, in the scenario) and a
gain/loss ratio of currency amounts `total_gains / |total_losses|`; for
one +10% winner and one -5% loser this ratio equals 2.0 exactly when the
two positions have equal cost bases (as in `holdC8`), and in general it
depends on the positions' cost bases, not only on their percentages. -/
theorem C8_counts_and_dollar_ratio (c : ℚ) (hc : 0 < c) :
    profitableCounts ((computeSnapshot (lookupC8 c) (holdC8 c)).items) = (1, 2) ∧
    ((computeSnapshot (lookupC8 c) (holdC8 c)).items.map
        LineItem.unrealized_pnl_pct) = [10, -5] ∧
    gainLossRat ((computeSnapshot (lookupC8 c) (holdC8 c)).items) = some 2 := by
  have hcne : c ≠ 0 := ne_of_gt hc
  have hitems : (computeSnapshot (lookupC8 c) (holdC8 c)).items =
      [mkLineItem (lookupC8 c) "W" ⟨1, c, c⟩, mkLineItem (lookupC8 c) "L" ⟨1, c, c⟩] := by
    rw [computeSnapshot_items]
    rfl
  have hW : (mkLineItem (lookupC8 c) "W" ⟨1, c, c⟩).unrealized_pnl = c / 10 := by
    simp [mkLineItem, lookupC8]
    ring
  have hL : (mkLineItem (lookupC8 c) "L" ⟨1, c, c⟩).unrealized_pnl = -(c / 20) := by
    simp [mkLineItem, lookupC8]
    ring
  have hWpct : (mkLineItem (lookupC8 c) "W" ⟨1, c, c⟩).unrealized_pnl_pct = 10 := by
    simp [mkLineItem, lookupC8, hc]
    field_simp
    ring
  have hLpct : (mkLineItem (lookupC8 c) "L" ⟨1, c, c⟩).unrealized_pnl_pct = -5 := by
    simp [mkLineItem, lookupC8, hc]
    field_simp
    ring
  have hWpos : (0 : ℚ) < c / 10 := by positivity
  have hLneg : -(c / 20) < 0 := by
    have : (0 : ℚ) < c / 20 := by positivity
    linarith
  have hwin : winners ((computeSnapshot (lookupC8 c) (holdC8 c)).items) =
      [mkLineItem (lookupC8 c) "W" ⟨1, c, c⟩] := by
    rw [hitems]
    unfold winners
    rw [List.filter_cons, List.filter_cons]
    simp [hW, hL, hWpos, not_lt.mpr (le_of_lt hLneg)]
  have hlos : losers ((computeSnapshot (lookupC8 c) (holdC8 c)).items) =
      [mkLineItem (lookupC8 c) "L" ⟨1, c, c⟩] := by
    rw [hitems]
    unfold losers
    rw [List.filter_cons, List.filter_cons]
    simp [hW, hL, hLneg, not_lt.mpr (le_of_lt hWpos)]
  have hgains : totalGains ((computeSnapshot (lookupC8 c) (holdC8 c)).items) = c / 10 := by
    rw [totalGains, hwin]
    simp [hW]
  have hlosses : totalLosses ((computeSnapshot (lookupC8 c) (holdC8 c)).items) = c / 20 := by
    rw [totalLosses, hlos]
    simp [hL]
    positivity
  refine ⟨?_, ?_, ?_⟩
  · rw [profitableCounts, hwin, hitems]
    rfl
  · rw [hitems]
    simp [hWpct, hLpct]
  · rw [gainLossRat, hgains, hlosses, if_pos (by positivity : (0 : ℚ) < c / 20)]
    congr 1
    field_simp
    ring
/-- Witness for C8 (amended) at cost basis 100. -/
theorem C8_counts_and_dollar_ratio_witness :
    profitableCounts ((computeSnapshot (lookupC8 100) (holdC8 100)).items) = (1, 2) ∧
    ((computeSnapshot (lookupC8 100) (holdC8 100)).items.map
        LineItem.unrealized_pnl_pct) = [10, -5] ∧
    gainLossRat ((computeSnapshot (lookupC8 100) (holdC8 100)).items) = some 2 :=
  C8_counts_and_dollar_ratio 100 (by norm_num)

/-- C9: with no limit, the trade listing is the user's stored trade list
in insertion order (and recording appends at the end, so insertion order
is recording order); with a limit `n` it is the last `n` trades reversed,
which is most-recent-first (strictly decreasing ids) whenever the stored
list has increasing ids; the listing is a plain finite list and reads the
service state without modifying it. -/
theorem C9_trade_listing (s : ServiceState) (u : Nat) (n : Nat) (ty sym : String)
    (q p : ℚ) (now : Nat)
    (hsorted : (getTrades s u).Pairwise (fun a b => a.id < b.id)) :
    listTrades s u none = getTrades s u ∧
    listTrades s u (some n) =
      ((getTrades s u).drop ((getTrades s u).length - n)).reverse ∧
    (listTrades s u (some n)).Pairwise (fun a b => b.id < a.id) ∧
    getTrades (recordTrade s u ty sym q p now).1 u =
      getTrades s u ++ [⟨s.trade_counter, ty, sym, q, p, q * p, now⟩] := by
  refine ⟨rfl, rfl, ?_, getTrades_recordTrade_self s u ty sym q p now⟩
  show ((getTrades s u).drop ((getTrades s u).length - n)).reverse.Pairwise _
  rw [List.pairwise_reverse]
  exact hsorted.sublist (List.drop_sublist _ _)

/-- Witness for C9 at a state holding trades with ids 1 and 3 for user 1,
with limit 1. -/
theorem C9_trade_listing_witness :
    listTrades gapState 1 none = getTrades gapState 1 ∧
    listTrades gapState 1 (some 1) =
      ((getTrades gapState 1).drop ((getTrades gapState 1).length - 1)).reverse ∧
    (listTrades gapState 1 (some 1)).Pairwise (fun a b => b.id < a.id) ∧
    getTrades (recordTrade gapState 1 "buy" "NVDA" 1 10 3).1 1 =
      getTrades gapState 1 ++ [⟨gapState.trade_counter, "buy", "NVDA", 1, 10, 1 * 10, 3⟩] :=
  C9_trade_listing gapState 1 1 "buy" "NVDA" 1 10 3 (by decide)

/-- C10: trade ids come from the single `trade_counter` shared by all
users of one service instance: the counter starts at 1, every recorded
trade is assigned the current counter value as its id and increments the
counter by 1, every id already stored (for any user) is strictly below
the newly assigned id (so ids are strictly increasing in recording order),
the ids remain pairwise distinct across all users, and a user's own id
sequence can have gaps when other users trade in between (after user 1,
user 2, user 1 trade in turn, user 1 holds ids `[1, 3]` and user 2 holds
`[2]`). -/
theorem C10_shared_trade_counter (s : ServiceState) (u : Nat) (ty sym : String)
    (q p : ℚ) (now : Nat) (hs : IdsOK s) :
    initState.trade_counter = 1 ∧
    IdsOK initState ∧
    (recordTrade s u ty sym q p now).2.trade_id = s.trade_counter ∧
    (recordTrade s u ty sym q p now).1.trade_counter = s.trade_counter + 1 ∧
    (∀ i ∈ allTradeIds s, i < (recordTrade s u ty sym q p now).2.trade_id) ∧
    IdsOK (recordTrade s u ty sym q p now).1 ∧
    (getTrades gapState 1).map Trade.id = [1, 3] ∧
    (getTrades gapState 2).map Trade.id = [2] := by
  refine ⟨rfl, ?_, rfl, rfl, ?_, IdsOK_record s u ty sym q p now hs, by decide, by decide⟩
  · constructor
    · intro i hi
      simp [allTradeIds, allTrades, initState] at hi
    · simp [allTradeIds, allTrades, initState]
  · intro i hi
    exact hs.1 i hi

/-- Witness for C10 at the fresh service state. -/
theorem C10_shared_trade_counter_witness :
    initState.trade_counter = 1 ∧
    IdsOK initState ∧
    (recordTrade initState 7 "buy" "AAPL" 1 10 0).2.trade_id = initState.trade_counter ∧
    (recordTrade initState 7 "buy" "AAPL" 1 10 0).1.trade_counter =
      initState.trade_counter + 1 ∧
    (∀ i ∈ allTradeIds initState,
      i < (recordTrade initState 7 "buy" "AAPL" 1 10 0).2.trade_id) ∧
    IdsOK (recordTrade initState 7 "buy" "AAPL" 1 10 0).1 ∧
    (getTrades gapState 1).map Trade.id = [1, 3] ∧
    (getTrades gapState 2).map Trade.id = [2] :=
  C10_shared_trade_counter initState 7 "buy" "AAPL" 1 10 0
    ⟨fun i hi => by simp [allTradeIds, allTrades, initState] at hi,
     by simp [allTradeIds, allTrades, initState]⟩
